import Mathlib

/-!
# Verification of the transformers-predictions forecast engine

A shallow embedding of the forecast synthesis and aggregation engine of the
`transformers-predictions` repository, together with proofs and refutations of
its specified properties.

Conventions of the embedding:

* Python floats are modelled as exact numbers: `ℚ` where the code only does
  field arithmetic and comparisons (aggregation, rankings, classification),
  `ℝ` where a square root enters (standard deviations, annualized volatility).
* Calendar dates are serial day numbers (`ℤ`), with day 0 a Monday, so that
  `d % 7` is Python's `date.weekday()` (Monday = 0 … Sunday = 6).
* Randomness is an oracle: each simulated day consumes one record of draws
  (`z` a standard-normal draw, `u1 u2 u3` standard-uniform draws in `[0,1]`),
  and `np.random.normal(0, s)` is modelled as `s * z`,
  `np.random.uniform(a, b)` as `a + u * (b - a)`.  Theorems quantify over all
  draw values, which subsumes every realization.
* `round(x, 2)` is modelled as exact round-half-to-even on the mathematical
  value, scaled by 100.
-/

/-- One OHLCV candlestick, the dict
`{"date":…, "open":…, "high":…, "low":…, "close":…, "volume":…}` used
throughout the repository.  `open` is a Lean keyword, hence the field `open'`. -/
structure Candle (α : Type) where
  date : ℤ
  open' : α
  high : α
  low : α
  close : α
  volume : α
deriving Repr, DecidableEq

/-- Default candle used to totalize list indexing (`List.getD`). -/
def cdefQ : Candle ℚ := ⟨0, 0, 0, 0, 0, 0⟩

/-- Default real-valued candle used to totalize list indexing. -/
def cdefR : Candle ℝ := ⟨0, 0, 0, 0, 0, 0⟩

/-! ## Calendar walk (weekend skipping)

`update_predictions_1003.py` lines 78–83 and `fix_qqq_predictions.py`
lines 29–35 both skip Saturdays and Sundays; they do it differently. -/

/-- The weekend-skip loop `while pred_date.weekday() >= 5: pred_date += 1`.
Starting from any day the loop body runs at most twice (Saturday needs +2,
Sunday +1), so the loop is unrolled to two guarded steps. -/
def skip_weekend (d : ℤ) : ℤ :=
  if 5 ≤ d % 7 then (if 5 ≤ (d + 1) % 7 then d + 2 else d + 1) else d

/-- Forecast date of simulated day `i` (0-based) in
`update_predictions_1003.generate_predictions` (lines 78–83):
`pred_date = last_date + timedelta(days=i+1)` followed by the weekend skip.
Note the offset is taken from `last_date` each iteration, not from the
previous forecast date. -/
def pred_date_1003 (last_date : ℤ) (i : ℕ) : ℤ :=
  skip_weekend (last_date + i + 1)

/-- One step of the date walk in `fix_qqq_predictions.py` lines 29–35: advance
one calendar day, then keep advancing while the weekday is Saturday/Sunday.
Consecutive dates appended by that loop are exactly the iterates of this
function. -/
def next_trading_date (d : ℤ) : ℤ :=
  skip_weekend (d + 1)

/-- Forecast date of day `i` (0-based) produced by the `fix_qqq_predictions.py`
date loop: the `(i+1)`-st iterate of `next_trading_date` from the last
historical date. -/
def fix_qqq_date (last_date : ℤ) : ℕ → ℤ
  | 0 => next_trading_date last_date
  | n + 1 => next_trading_date (fix_qqq_date last_date n)

/-! ## Trend classification

`process_candlestick.py` lines 243–252, `fix_qqq_predictions.py` lines
131–136 and `generate_stats.py` lines 46–51 all classify a percentage price
change with the same thresholds. -/

/-- The three trend buckets. -/
inductive Trend where
  | Bullish
  | Bearish
  | Neutral
deriving Repr, DecidableEq

/-- Trend classification of a percentage price change:
`if pct > 1: Bullish elif pct < -1: Bearish else: Neutral`. -/
def classify_trend (pct : ℚ) : Trend :=
  if pct > 1 then Trend.Bullish
  else if pct < -1 then Trend.Bearish
  else Trend.Neutral

/-- The weekend skip always lands on a weekday. -/
theorem skip_weekend_weekday (d : ℤ) : skip_weekend d % 7 < 5 := by
  unfold skip_weekend
  split
  · split <;> omega
  · omega

/-- C2.  The forecast-date computation of
`update_predictions_1003.generate_predictions` does **not** walk from the
previous forecast date: it offsets the last historical date by `i+1` calendar
days and then skips the weekend.  Evaluated at the failing input — a last
historical date that is a Friday, such as the configured lookback end
2025-10-03 — days 0, 1 and 2 all map to the same following Monday, violating
the claimed pairwise-distinct strictly-increasing forecast dates (and the
module's own docstring, which promises predictions for 2025-10-06 through
2025-10-10).  The `fix_qqq_predictions.py` walk from the same Friday produces
the five distinct consecutive weekdays Monday…Friday that the claim (and the
docstring) describe.  Day 4 here is the serial number of a Friday
(day 0 = Monday). -/
theorem pred_date_1003_friday_collision :
    pred_date_1003 4 0 = 7 ∧ pred_date_1003 4 1 = 7 ∧ pred_date_1003 4 2 = 7 ∧
    pred_date_1003 4 3 = 8 ∧ pred_date_1003 4 4 = 9 ∧
    fix_qqq_date 4 0 = 7 ∧ fix_qqq_date 4 1 = 8 ∧ fix_qqq_date 4 2 = 9 ∧
    fix_qqq_date 4 3 = 10 ∧ fix_qqq_date 4 4 = 11 := by
  refine ⟨?_, ?_, ?_, ?_, ?_, ?_, ?_, ?_, ?_, ?_⟩ <;> decide

/-- C5.  Trend classification is a pure function of the percentage change:
strictly above 1 is Bullish, strictly below −1 is Bearish, and the closed
interval [−1, 1] — the boundary values included — is Neutral.  The three cases
are exhaustive and mutually exclusive, so every record falls in exactly one
bucket. -/
theorem classify_trend_thresholds (pct : ℚ) :
    (1 < pct → classify_trend pct = Trend.Bullish) ∧
    (pct < -1 → classify_trend pct = Trend.Bearish) ∧
    (-1 ≤ pct → pct ≤ 1 → classify_trend pct = Trend.Neutral) ∧
    (classify_trend pct = Trend.Bullish ∨ classify_trend pct = Trend.Bearish ∨
      classify_trend pct = Trend.Neutral) := by
  unfold classify_trend
  refine ⟨?_, ?_, ?_, ?_⟩
  · intro h; rw [if_pos h]
  · intro h
    rw [if_neg (by linarith), if_pos h]
  · intro h1 h2
    rw [if_neg (by linarith), if_neg (by linarith)]
  · by_cases h1 : pct > 1
    · left; rw [if_pos h1]
    · by_cases h2 : pct < -1
      · right; left; rw [if_neg h1, if_pos h2]
      · right; right; rw [if_neg h1, if_neg h2]

/-- Witness for C5: the classifier evaluated on concrete inputs on both sides
of each threshold and exactly at the boundaries. -/
theorem classify_trend_thresholds_witness :
    classify_trend 2 = Trend.Bullish ∧ classify_trend (-2) = Trend.Bearish ∧
    classify_trend 1 = Trend.Neutral ∧ classify_trend (-1) = Trend.Neutral ∧
    classify_trend 0 = Trend.Neutral :=
  ⟨(classify_trend_thresholds 2).1 (by norm_num),
   (classify_trend_thresholds (-2)).2.1 (by norm_num),
   (classify_trend_thresholds 1).2.2.1 (by norm_num) (by norm_num),
   (classify_trend_thresholds (-1)).2.2.1 (by norm_num) (by norm_num),
   (classify_trend_thresholds 0).2.2.1 (by norm_num) (by norm_num)⟩

/-! ## Market analytics aggregation

`process_candlestick.py` (`CandlestickDataProcessor`): per-ticker summary
records and the market-overview rankings built from them. -/

/-- The reduced per-ticker summary consumed by `update_market_overview`
(lines 243–271): ticker, `price_change_percent`, `average_volume`,
`volatility` and `latest_price`.  `volatility` is real-valued because the
producer computes it with a square root. -/
structure SummaryRec where
  ticker : String
  change_percent : ℚ
  volume : ℚ
  volatility : ℝ
  price : ℚ

/-- `list.sort(key=f, reverse=True)`: `a` may precede `b` iff `f b ≤ f a`.
With ties this relation holds both ways, and `List.insertionSort` keeps the
earlier element first, exactly like Python's stable sort. -/
def desc_by {α : Type} [LinearOrder α] (f : SummaryRec → α) (a b : SummaryRec) : Prop :=
  f b ≤ f a

/-- `sorted(l, key=f)` (ascending, stable). -/
def asc_by {α : Type} [LinearOrder α] (f : SummaryRec → α) (a b : SummaryRec) : Prop :=
  f a ≤ f b

instance {α : Type} [LinearOrder α] (f : SummaryRec → α) : DecidableRel (desc_by f) :=
  fun a b => inferInstanceAs (Decidable (f b ≤ f a))

instance {α : Type} [LinearOrder α] (f : SummaryRec → α) : DecidableRel (asc_by f) :=
  fun a b => inferInstanceAs (Decidable (f a ≤ f b))

instance {α : Type} [LinearOrder α] (f : SummaryRec → α) : IsTotal SummaryRec (desc_by f) :=
  ⟨fun a b => le_total (f b) (f a)⟩

instance {α : Type} [LinearOrder α] (f : SummaryRec → α) : IsTotal SummaryRec (asc_by f) :=
  ⟨fun a b => le_total (f a) (f b)⟩

instance {α : Type} [LinearOrder α] (f : SummaryRec → α) : IsTrans SummaryRec (desc_by f) :=
  ⟨fun _ _ _ hab hbc => le_trans hbc hab⟩

instance {α : Type} [LinearOrder α] (f : SummaryRec → α) : IsTrans SummaryRec (asc_by f) :=
  ⟨fun _ _ _ hab hbc => le_trans hab hbc⟩

/-- `gainers.sort(key=lambda x: x["change_percent"], reverse=True)`
(line 274): the full list of records sorted descending by percent change,
before truncation. -/
def rank_by_change (recs : List SummaryRec) : List SummaryRec :=
  List.insertionSort (desc_by SummaryRec.change_percent) recs

/-- `gainers = gainers[:10]` (line 276). -/
def top_gainers (recs : List SummaryRec) : List SummaryRec :=
  (rank_by_change recs).take 10

/-- `losers = sorted(gainers, key=lambda x: x["change_percent"])[:10]`
(line 275): the descending-sorted full list re-sorted ascending, truncated. -/
def top_losers (recs : List SummaryRec) : List SummaryRec :=
  (List.insertionSort (asc_by SummaryRec.change_percent) (rank_by_change recs)).take 10

/-- `volume_leaders.sort(key=..., reverse=True)` then `[:10]` (278–279). -/
def highest_volume (recs : List SummaryRec) : List SummaryRec :=
  (List.insertionSort (desc_by SummaryRec.volume) recs).take 10

/-- `volatile_stocks.sort(key=..., reverse=True)` then `[:10]` (281–282). -/
noncomputable def most_volatile (recs : List SummaryRec) : List SummaryRec :=
  (List.insertionSort (desc_by SummaryRec.volatility) recs).take 10

/-- The ranking order asserted by the claim for top gainers: descending by
percent change with ties broken by ticker lexical order.  Ticker strings are
compared by their character sequences. -/
def gainers_claim_order (a b : SummaryRec) : Prop :=
  b.change_percent < a.change_percent ∨
    (a.change_percent = b.change_percent ∧ (a.ticker.data < b.ticker.data ∨ a.ticker.data = b.ticker.data))

instance : DecidableRel gainers_claim_order :=
  fun a b =>
    inferInstanceAs (Decidable (b.change_percent < a.change_percent ∨
      (a.change_percent = b.change_percent ∧
        (a.ticker.data < b.ticker.data ∨ a.ticker.data = b.ticker.data))))

/-- A tied record named "B" that the processor's dict iteration yields first. -/
def rec_tie_B : SummaryRec := ⟨"B", 5, 0, 0, 0⟩

/-- A tied record named "A" that the processor's dict iteration yields second. -/
def rec_tie_A : SummaryRec := ⟨"A", 5, 0, 0, 0⟩

/-- Counterexample for C6.  The sorts in `update_market_overview` are keyed on
the metric alone; Python's stable sort leaves tied records in dict-iteration
order, not ticker lexical order.  With two records tied at +5% arriving in
the order B, A, the top-gainers list is [B, A], which violates the claimed
"descending by change percent with ties broken by ticker lexical order". -/
theorem top_gainers_tie_not_lexical :
    ¬ List.Pairwise gainers_claim_order (top_gainers [rec_tie_B, rec_tie_A]) := by
  decide

/-- C6 (amended).  Every ranking list of `update_market_overview` has at most
10 entries and is sorted by its documented metric order — gainers descending
by percent change, losers ascending, volume and volatility descending.  Tied
entries keep their input (dict-iteration) order; no lexical tie-break is
applied. -/
theorem ranking_lists_bounded_and_sorted (recs : List SummaryRec) :
    (top_gainers recs).length ≤ 10 ∧
    (top_losers recs).length ≤ 10 ∧
    (highest_volume recs).length ≤ 10 ∧
    (most_volatile recs).length ≤ 10 ∧
    List.Sorted (desc_by SummaryRec.change_percent) (top_gainers recs) ∧
    List.Sorted (asc_by SummaryRec.change_percent) (top_losers recs) ∧
    List.Sorted (desc_by SummaryRec.volume) (highest_volume recs) ∧
    List.Sorted (desc_by SummaryRec.volatility) (most_volatile recs) := by
  refine ⟨?_, ?_, ?_, ?_, ?_, ?_, ?_, ?_⟩
  · simp [top_gainers, List.length_take]
  · simp [top_losers, List.length_take]
  · simp [highest_volume, List.length_take]
  · simp [most_volatile, List.length_take]
  · exact (List.sorted_insertionSort _ _).sublist (List.take_sublist 10 _)
  · exact (List.sorted_insertionSort _ _).sublist (List.take_sublist 10 _)
  · exact (List.sorted_insertionSort _ _).sublist (List.take_sublist 10 _)
  · exact (List.sorted_insertionSort _ _).sublist (List.take_sublist 10 _)

/-! ## Percentile aggregation

`update_predictions_1003.calculate_percentiles` (lines 132–158) reduces the
Monte Carlo ensemble to per-day, per-field statistics via `np.percentile`
with the default linear-interpolation method. -/

/-- `np.mean` / `statistics.mean`: arithmetic mean, with the empty list mapped
to 0 (division by zero) — callers only use it on non-empty data. -/
def list_mean {α : Type} [DivisionRing α] (l : List α) : α :=
  l.sum / l.length

/-- The linear interpolation step of `np.percentile`: given the ascending
order statistics `s` and the virtual index `pos`, interpolate between
`s[⌊pos⌋]` and `s[⌊pos⌋+1]`, clamping to the last element at the top. -/
def perc_interp (s : List ℚ) (pos : ℚ) : ℚ :=
  if (⌊pos⌋).toNat + 1 < s.length then
    s.getD (⌊pos⌋).toNat 0 +
      (pos - ⌊pos⌋) * (s.getD ((⌊pos⌋).toNat + 1) 0 - s.getD (⌊pos⌋).toNat 0)
  else s.getD (s.length - 1) 0

/-- `np.percentile(values, q)` with the default (linear) method: sort the
data, take the virtual position `q/100 * (n-1)`, and linearly interpolate
between the neighbouring order statistics. -/
def np_percentile (values : List ℚ) (q : ℚ) : ℚ :=
  perc_interp (List.insertionSort (· ≤ ·) values) (q * ((values.length : ℚ) - 1) / 100)

/-- In a `≤`-sorted list, `getD` with any default is monotone in the index as
long as the larger index is in bounds. -/
theorem sorted_getD_mono {s : List ℚ} (hs : s.Sorted (· ≤ ·)) {i j : ℕ}
    (hij : i ≤ j) (hj : j < s.length) : s.getD i 0 ≤ s.getD j 0 := by
  have hi : i < s.length := lt_of_le_of_lt hij hj
  rw [List.getD_eq_getElem s 0 hi, List.getD_eq_getElem s 0 hj]
  rcases eq_or_lt_of_le hij with rfl | hlt
  · exact le_refl _
  · have := hs.rel_get_of_lt (a := ⟨i, hi⟩) (b := ⟨j, hj⟩) hlt
    simpa [List.get_eq_getElem] using this

/-- The interpolation of `perc_interp` is monotone in the virtual position on
a sorted list, for positions within `[0, n-1]`. -/
theorem perc_interp_mono {s : List ℚ} (hs : s.Sorted (· ≤ ·)) (hn1 : 1 ≤ s.length)
    {p p' : ℚ} (h0 : 0 ≤ p) (hpp' : p ≤ p') (htop : p' ≤ (s.length : ℚ) - 1) :
    perc_interp s p ≤ perc_interp s p' := by
  set n := s.length with hn_def
  have hfl0 : 0 ≤ ⌊p⌋ := Int.floor_nonneg.mpr h0
  have hfl0' : 0 ≤ ⌊p'⌋ := le_trans hfl0 (Int.floor_le_floor hpp')
  set i := (⌊p⌋).toNat with hi_def
  set i' := (⌊p'⌋).toNat with hi'_def
  have hii' : i ≤ i' := Int.toNat_le_toNat (Int.floor_le_floor hpp')
  -- the larger index stays within the order statistics
  have htop' : ⌊p'⌋ ≤ (n : ℤ) - 1 := by
    have h1 : ⌊p'⌋ ≤ ⌊((n : ℚ) - 1)⌋ := Int.floor_le_floor htop
    have h2 : ((n : ℚ) - 1) = (((n : ℤ) - 1 : ℤ) : ℚ) := by push_cast; ring
    rwa [h2, Int.floor_intCast] at h1
  have hi'_top : i' ≤ n - 1 := by omega
  have hi_top : i ≤ n - 1 := le_trans hii' hi'_top
  -- fractional parts
  have hg0 : 0 ≤ p - ⌊p⌋ := by linarith [Int.floor_le p]
  have hg1 : p - ⌊p⌋ ≤ 1 := by linarith [Int.lt_floor_add_one p]
  have hg0' : 0 ≤ p' - ⌊p'⌋ := by linarith [Int.floor_le p']
  have hg1' : p' - ⌊p'⌋ ≤ 1 := by linarith [Int.lt_floor_add_one p']
  unfold perc_interp
  rw [← hi_def, ← hi'_def, ← hn_def]
  by_cases hA : i + 1 < n
  · have hAd : 0 ≤ s.getD (i+1) 0 - s.getD i 0 := by
      have := sorted_getD_mono hs (Nat.le_succ i) hA
      linarith
    by_cases hB : i' + 1 < n
    · rw [if_pos hA, if_pos hB]
      have hBd : 0 ≤ s.getD (i'+1) 0 - s.getD i' 0 := by
        have := sorted_getD_mono hs (Nat.le_succ i') hB
        linarith
      by_cases hE : i = i'
      · -- same cell: compare the fractional parts
        have hfe : ⌊p⌋ = ⌊p'⌋ := by
          have h1 := Int.toNat_of_nonneg hfl0
          have h2 := Int.toNat_of_nonneg hfl0'
          omega
        rw [← hE, ← hfe]
        have hgg : p - ⌊p⌋ ≤ p' - ⌊p⌋ := by linarith
        nlinarith [mul_le_mul_of_nonneg_right hgg hAd]
      · -- the position advanced at least one full cell
        have hlt : i < i' := lt_of_le_of_ne hii' hE
        have h1 : s.getD i 0 + (p - ⌊p⌋) * (s.getD (i+1) 0 - s.getD i 0) ≤ s.getD (i+1) 0 := by
          nlinarith [mul_le_mul_of_nonneg_right hg1 hAd]
        have h2 : s.getD (i+1) 0 ≤ s.getD i' 0 :=
          sorted_getD_mono hs (Nat.succ_le_of_lt hlt) (by omega)
        have h3 : s.getD i' 0 ≤ s.getD i' 0 + (p' - ⌊p'⌋) * (s.getD (i'+1) 0 - s.getD i' 0) := by
          nlinarith [mul_nonneg hg0' hBd]
        linarith
    · rw [if_pos hA, if_neg hB]
      have h1 : s.getD i 0 + (p - ⌊p⌋) * (s.getD (i+1) 0 - s.getD i 0) ≤ s.getD (i+1) 0 := by
        nlinarith [mul_le_mul_of_nonneg_right hg1 hAd]
      have h2 : s.getD (i+1) 0 ≤ s.getD (n-1) 0 :=
        sorted_getD_mono hs (by omega) (by omega)
      linarith
  · -- both positions clamp to the last element
    have hB : ¬ (i' + 1 < n) := by omega
    rw [if_neg hA, if_neg hB]

/-- `np.percentile` is monotone in the percentile level on non-empty data:
the property behind the p10 ≤ p25 ≤ p50 ≤ p75 ≤ p90 invariant. -/
theorem np_percentile_mono {values : List ℚ} (hne : values ≠ []) {q q' : ℚ}
    (h0 : 0 ≤ q) (hqq' : q ≤ q') (h100 : q' ≤ 100) :
    np_percentile values q ≤ np_percentile values q' := by
  have hs : (List.insertionSort (· ≤ ·) values).Sorted (· ≤ ·) :=
    List.sorted_insertionSort _ _
  have hlen : (List.insertionSort (· ≤ ·) values).length = values.length :=
    List.length_insertionSort _ _
  have hn1 : 1 ≤ (List.insertionSort (· ≤ ·) values).length := by
    rw [hlen]
    exact List.length_pos.mpr hne
  have hnn : (0:ℚ) ≤ (values.length : ℚ) - 1 := by
    have : (1:ℚ) ≤ (values.length : ℚ) := by exact_mod_cast hlen ▸ hn1
    linarith
  unfold np_percentile
  apply perc_interp_mono hs hn1
  · exact div_nonneg (mul_nonneg h0 hnn) (by norm_num)
  · exact (div_le_div_iff_of_pos_right (by norm_num)).mpr
      (mul_le_mul_of_nonneg_right hqq' hnn)
  · rw [hlen, div_le_iff₀ (by norm_num : (0:ℚ) < 100)]
    nlinarith [mul_le_mul_of_nonneg_right h100 hnn]

/-- Population variance, `np.std(values)**2` (numpy's default `ddof=0`). -/
def pop_var (l : List ℚ) : ℚ :=
  (l.map (fun x => (x - list_mean l) ^ 2)).sum / l.length

/-- `np.std(values)` (population standard deviation, `ddof=0`). -/
noncomputable def np_std (l : List ℚ) : ℝ :=
  Real.sqrt ((pop_var l : ℚ) : ℝ)

/-- The per-(day, field) statistics dict of `calculate_percentiles`
(lines 146–154): the five percentiles plus mean and standard deviation. -/
structure PercStats where
  p10 : ℚ
  p25 : ℚ
  p50 : ℚ
  p75 : ℚ
  p90 : ℚ
  mean : ℚ
  std : ℝ

/-- The statistics computed for the `values` of one (day, field) pair. -/
noncomputable def field_stats (values : List ℚ) : PercStats :=
  { p10 := np_percentile values 10
    p25 := np_percentile values 25
    p50 := np_percentile values 50
    p75 := np_percentile values 75
    p90 := np_percentile values 90
    mean := list_mean values
    std := np_std values }

/-- The `day_stats` dict (lines 142–154): `field_stats` of the ensemble's
values at day `d` for each of the four OHLC metrics. -/
structure DayStats where
  open' : PercStats
  high : PercStats
  low : PercStats
  close : PercStats

/-- One day's statistics across the ensemble (the loop over
`['open', 'high', 'low', 'close']`, lines 143–154). -/
noncomputable def day_stats (paths : List (List (Candle ℚ))) (d : ℕ) : DayStats :=
  { open' := field_stats (paths.map fun p => (p.getD d cdefQ).open')
    high := field_stats (paths.map fun p => (p.getD d cdefQ).high)
    low := field_stats (paths.map fun p => (p.getD d cdefQ).low)
    close := field_stats (paths.map fun p => (p.getD d cdefQ).close) }

/-- `calculate_percentiles(monte_carlo_paths)` (lines 132–158): empty input
gives an empty dict; otherwise one `(date, day_stats)` entry per horizon day
of the first path. -/
noncomputable def calculate_percentiles (paths : List (List (Candle ℚ))) : List (ℤ × DayStats) :=
  match paths with
  | [] => []
  | p0 :: _ => (List.range p0.length).map fun d => ((p0.getD d cdefQ).date, day_stats paths d)

/-- The percentile levels of one field are in non-decreasing order. -/
def mono_perc (ps : PercStats) : Prop :=
  ps.p10 ≤ ps.p25 ∧ ps.p25 ≤ ps.p50 ∧ ps.p50 ≤ ps.p75 ∧ ps.p75 ≤ ps.p90

/-- On non-empty data all five percentile levels are ordered. -/
theorem field_stats_mono {values : List ℚ} (h : values ≠ []) :
    mono_perc (field_stats values) :=
  ⟨np_percentile_mono h (by norm_num) (by norm_num) (by norm_num),
   np_percentile_mono h (by norm_num) (by norm_num) (by norm_num),
   np_percentile_mono h (by norm_num) (by norm_num) (by norm_num),
   np_percentile_mono h (by norm_num) (by norm_num) (by norm_num)⟩

/-- C3.  Every per-day statistics entry produced by `calculate_percentiles`
from a Monte Carlo ensemble satisfies p10 ≤ p25 ≤ p50 ≤ p75 ≤ p90 for each of
the four OHLC fields.  (For an empty ensemble the function returns no
entries, so the statement covers every non-empty ensemble and every day.) -/
theorem calculate_percentiles_monotone (paths : List (List (Candle ℚ)))
    (e : ℤ × DayStats) (he : e ∈ calculate_percentiles paths) :
    mono_perc e.2.open' ∧ mono_perc e.2.high ∧ mono_perc e.2.low ∧ mono_perc e.2.close := by
  match paths with
  | [] => simp [calculate_percentiles] at he
  | p0 :: rest =>
    simp only [calculate_percentiles, List.mem_map, List.mem_range] at he
    obtain ⟨d, _, rfl⟩ := he
    have hne : (p0 :: rest).map (fun p => (p.getD d cdefQ).open') ≠ [] := by simp
    have hne2 : (p0 :: rest).map (fun p => (p.getD d cdefQ).high) ≠ [] := by simp
    have hne3 : (p0 :: rest).map (fun p => (p.getD d cdefQ).low) ≠ [] := by simp
    have hne4 : (p0 :: rest).map (fun p => (p.getD d cdefQ).close) ≠ [] := by simp
    exact ⟨field_stats_mono hne, field_stats_mono hne2,
           field_stats_mono hne3, field_stats_mono hne4⟩

/-- A concrete candle used to instantiate the aggregation theorems. -/
def cq_w : Candle ℚ := ⟨20360, 101, 105, 99, 103, 1000⟩

/-- Witness for C3: the single-path ensemble `[[cq_w]]` yields one entry, it
is a member of the computed percentile list, and its four fields are
monotone. -/
theorem calculate_percentiles_monotone_witness :
    (cq_w.date, day_stats [[cq_w]] 0) ∈ calculate_percentiles [[cq_w]] ∧
    (mono_perc (day_stats [[cq_w]] 0).open' ∧ mono_perc (day_stats [[cq_w]] 0).high ∧
     mono_perc (day_stats [[cq_w]] 0).low ∧ mono_perc (day_stats [[cq_w]] 0).close) :=
  ⟨by simp [calculate_percentiles], by
    simpa using calculate_percentiles_monotone [[cq_w]] (cq_w.date, day_stats [[cq_w]] 0)
      (by simp [calculate_percentiles])⟩

/-! ## Mean path and the empty-ensemble fallback

`create_prediction_json` (lines 160–236). -/

/-- Lines 163–177: the headline forecast.  With a non-empty ensemble, day `d`
of the mean path carries the date of the first path's day `d` and the
arithmetic mean (`np.mean`) of each OHLCV field across the ensemble;
with an empty ensemble the function falls back to the base predictions
(`mean_predictions = predictions`). -/
def mean_predictions (paths : List (List (Candle ℚ))) (base : List (Candle ℚ)) : List (Candle ℚ) :=
  match paths with
  | [] => base
  | p0 :: _ => (List.range p0.length).map fun d =>
      { date := (p0.getD d cdefQ).date
        open' := list_mean (paths.map fun p => (p.getD d cdefQ).open')
        high := list_mean (paths.map fun p => (p.getD d cdefQ).high)
        low := list_mean (paths.map fun p => (p.getD d cdefQ).low)
        close := list_mean (paths.map fun p => (p.getD d cdefQ).close)
        volume := list_mean (paths.map fun p => (p.getD d cdefQ).volume) }

/-- Line 196: `calculate_percentiles(monte_carlo_paths) if monte_carlo_paths
else {}`. -/
noncomputable def prediction_percentiles_field (paths : List (List (Candle ℚ))) : List (ℤ × DayStats) :=
  if paths = [] then [] else calculate_percentiles paths

/-- Line 224: `monte_carlo_paths if monte_carlo_paths else []`. -/
def mc_paths_field (paths : List (List (Candle ℚ))) : List (List (Candle ℚ)) :=
  if paths = [] then [] else paths

/-- C4.  For a non-empty ensemble, the mean-path candle at horizon day `d`
equals, in every one of the five fields, the sum of the ensemble's values at
`(d, field)` divided by the number of paths — the arithmetic mean (exact in
this embedding, hence within any floating-point tolerance).  It is computed
from the ensemble, not selected among the simulated paths. -/
theorem mean_path_is_ensemble_mean (paths : List (List (Candle ℚ)))
    (base : List (Candle ℚ)) (d : ℕ) (hne : paths ≠ []) (hd : d < paths.headI.length) :
    ((mean_predictions paths base).getD d cdefQ).open'
        = (paths.map fun p => (p.getD d cdefQ).open').sum / (paths.length : ℚ) ∧
    ((mean_predictions paths base).getD d cdefQ).high
        = (paths.map fun p => (p.getD d cdefQ).high).sum / (paths.length : ℚ) ∧
    ((mean_predictions paths base).getD d cdefQ).low
        = (paths.map fun p => (p.getD d cdefQ).low).sum / (paths.length : ℚ) ∧
    ((mean_predictions paths base).getD d cdefQ).close
        = (paths.map fun p => (p.getD d cdefQ).close).sum / (paths.length : ℚ) ∧
    ((mean_predictions paths base).getD d cdefQ).volume
        = (paths.map fun p => (p.getD d cdefQ).volume).sum / (paths.length : ℚ) := by
  obtain ⟨p0, rest, rfl⟩ := List.exists_cons_of_ne_nil hne
  have hd' : d < p0.length := by simpa using hd
  have hGet : (mean_predictions (p0 :: rest) base).getD d cdefQ =
      { date := (p0.getD d cdefQ).date
        open' := list_mean ((p0 :: rest).map fun p => (p.getD d cdefQ).open')
        high := list_mean ((p0 :: rest).map fun p => (p.getD d cdefQ).high)
        low := list_mean ((p0 :: rest).map fun p => (p.getD d cdefQ).low)
        close := list_mean ((p0 :: rest).map fun p => (p.getD d cdefQ).close)
        volume := list_mean ((p0 :: rest).map fun p => (p.getD d cdefQ).volume) } := by
    simp only [mean_predictions]
    rw [List.getD_eq_getElem _ _ (by simpa using hd'), List.getElem_map, List.getElem_range]
  rw [hGet]
  simp [list_mean]

/-- Witness for C4: the mean path of the one-path ensemble `[[cq_w]]`
evaluated at day 0. -/
theorem mean_path_is_ensemble_mean_witness :
    ((mean_predictions [[cq_w]] []).getD 0 cdefQ).open'
        = (([[cq_w]].map fun p => (p.getD 0 cdefQ).open')).sum / (([[cq_w]] : List (List (Candle ℚ))).length : ℚ) ∧
    ((mean_predictions [[cq_w]] []).getD 0 cdefQ).high
        = (([[cq_w]].map fun p => (p.getD 0 cdefQ).high)).sum / (([[cq_w]] : List (List (Candle ℚ))).length : ℚ) ∧
    ((mean_predictions [[cq_w]] []).getD 0 cdefQ).low
        = (([[cq_w]].map fun p => (p.getD 0 cdefQ).low)).sum / (([[cq_w]] : List (List (Candle ℚ))).length : ℚ) ∧
    ((mean_predictions [[cq_w]] []).getD 0 cdefQ).close
        = (([[cq_w]].map fun p => (p.getD 0 cdefQ).close)).sum / (([[cq_w]] : List (List (Candle ℚ))).length : ℚ) ∧
    ((mean_predictions [[cq_w]] []).getD 0 cdefQ).volume
        = (([[cq_w]].map fun p => (p.getD 0 cdefQ).volume)).sum / (([[cq_w]] : List (List (Candle ℚ))).length : ℚ) :=
  mean_path_is_ensemble_mean [[cq_w]] [] 0 (by simp) (by simp)

/-- C8.  With an empty Monte Carlo ensemble, `create_prediction_json` falls
back to the deterministic base path as `predicted_candlesticks`, writes an
empty `prediction_percentiles` map and an empty `monte_carlo_paths` list:
the record still carries the base forecast, never a silently empty one. -/
theorem empty_ensemble_fallback (base : List (Candle ℚ)) :
    mean_predictions [] base = base ∧
    prediction_percentiles_field [] = [] ∧
    calculate_percentiles [] = [] ∧
    mc_paths_field [] = [] :=
  ⟨rfl, rfl, rfl, rfl⟩

/-! ## Per-ticker record processing

`CandlestickDataProcessor.process_ohlcv_file` (lines 112–169). -/

/-- Sample variance (`statistics.stdev(l)**2`, `ddof = 1`). -/
def sample_var (l : List ℚ) : ℚ :=
  (l.map (fun x => (x - list_mean l) ^ 2)).sum / ((l.length : ℚ) - 1)

/-- The record `process_ohlcv_file` builds for one ticker (only the fields
the analytics consume).  `latest_price` is `None` when the file has neither
actual nor historical candles. -/
structure ProcessedTicker where
  ticker : String
  latest_price : Option ℚ
  price_change : ℚ
  price_change_percent : ℚ
  average_volume : ℚ
  volatility : ℝ

/-- `process_ohlcv_file(data, ticker)` (lines 112–169): latest price from
actuals, else historicals; price change vs. the last historical close only
when both lists are non-empty; average volume over the last 5 candles
(actuals preferred); volatility = `stdev(last 10 actual closes) / mean × 100`
only when there are at least 2 actual closes. -/
noncomputable def process_ohlcv_file (ticker : String)
    (historical actual : List (Candle ℚ)) : ProcessedTicker :=
  let latest_price : Option ℚ :=
    if actual ≠ [] then some (actual.getLastD cdefQ).close
    else if historical ≠ [] then some (historical.getLastD cdefQ).close
    else none
  let price_change : ℚ :=
    if historical ≠ [] ∧ actual ≠ [] then
      (actual.getLastD cdefQ).close - (historical.getLastD cdefQ).close
    else 0
  let price_change_percent : ℚ :=
    if historical ≠ [] ∧ actual ≠ [] then
      ((actual.getLastD cdefQ).close - (historical.getLastD cdefQ).close)
        / (historical.getLastD cdefQ).close * 100
    else 0
  let volume_data : List ℚ :=
    if actual ≠ [] then (actual.drop (actual.length - 5)).map Candle.volume
    else if historical ≠ [] then (historical.drop (historical.length - 5)).map Candle.volume
    else []
  let average_volume : ℚ := if volume_data ≠ [] then list_mean volume_data else 0
  let volatility : ℝ :=
    if actual ≠ [] then
      (if 1 < ((actual.drop (actual.length - 10)).map Candle.close).length then
        Real.sqrt ((sample_var ((actual.drop (actual.length - 10)).map Candle.close) : ℚ) : ℝ)
          / ((list_mean ((actual.drop (actual.length - 10)).map Candle.close) : ℚ) : ℝ) * 100
      else 0)
    else 0
  ⟨ticker, latest_price, price_change, price_change_percent, average_volume, volatility⟩

/-- The ranking entry `update_market_overview` builds from a processed record
(lines 254–271): the metrics are copied verbatim.  (A `None` latest price is
represented as 0 here; no claim depends on the price column.) -/
noncomputable def overview_entry (r : ProcessedTicker) : SummaryRec :=
  ⟨r.ticker, r.price_change_percent, r.average_volume, r.volatility, r.latest_price.getD 0⟩

/-- C10.  A freshly generated record has `actual_candlesticks = []`; for it
`process_ohlcv_file` computes `price_change_percent = 0` and `volatility = 0`
(the guards `if historical and actual` / `if actual` both fail), so the
record is classified Neutral by the overview and its gainers/losers entry and
volatility entry both carry the metric 0. -/
theorem empty_actuals_neutral (ticker : String) (historical actual : List (Candle ℚ))
    (h : actual = []) :
    (process_ohlcv_file ticker historical actual).price_change_percent = 0 ∧
    (process_ohlcv_file ticker historical actual).volatility = 0 ∧
    classify_trend (process_ohlcv_file ticker historical actual).price_change_percent
      = Trend.Neutral ∧
    (overview_entry (process_ohlcv_file ticker historical actual)).change_percent = 0 ∧
    (overview_entry (process_ohlcv_file ticker historical actual)).volatility = 0 := by
  subst h
  have h0 : (process_ohlcv_file ticker historical []).price_change_percent = 0 := by
    simp [process_ohlcv_file]
  refine ⟨h0, by simp [process_ohlcv_file], ?_, by simp [overview_entry, h0],
    by simp [overview_entry, process_ohlcv_file]⟩
  rw [h0]
  decide

/-- Witness for C10: a concrete record with one historical candle and no
actuals. -/
theorem empty_actuals_neutral_witness :
    (([] : List (Candle ℚ)) = []) ∧
    ((process_ohlcv_file "QQQ" [cq_w] []).price_change_percent = 0 ∧
     (process_ohlcv_file "QQQ" [cq_w] []).volatility = 0 ∧
     classify_trend (process_ohlcv_file "QQQ" [cq_w] []).price_change_percent = Trend.Neutral ∧
     (overview_entry (process_ohlcv_file "QQQ" [cq_w] [])).change_percent = 0 ∧
     (overview_entry (process_ohlcv_file "QQQ" [cq_w] [])).volatility = 0) :=
  ⟨rfl, empty_actuals_neutral "QQQ" [cq_w] [] rfl⟩

/-! ## The stochastic path simulator

`update_predictions_1003.generate_predictions` (lines 52–116), with
randomness supplied as an oracle of per-day draws. -/

/-- `np.sign`. -/
noncomputable def np_sign (x : ℝ) : ℝ :=
  if 0 < x then 1 else if x < 0 then -1 else 0

/-- Python's `round` to an integer: nearest, ties to even. -/
noncomputable def round_half_even (x : ℝ) : ℤ :=
  if Int.fract x < 1/2 then ⌊x⌋
  else if 1/2 < Int.fract x then ⌊x⌋ + 1
  else if Even ⌊x⌋ then ⌊x⌋ else ⌊x⌋ + 1

/-- `round(x, 2)`: round half-to-even at the second decimal. -/
noncomputable def round2 (x : ℝ) : ℝ :=
  (round_half_even (100 * x) : ℝ) / 100

/-- The rounded value is within half a unit of the argument. -/
theorem round_half_even_bounds (x : ℝ) :
    x - 1/2 ≤ (round_half_even x : ℝ) ∧ (round_half_even x : ℝ) ≤ x + 1/2 := by
  have h1 : (⌊x⌋ : ℝ) ≤ x := Int.floor_le x
  have h2 : x < ⌊x⌋ + 1 := Int.lt_floor_add_one x
  unfold round_half_even
  simp only [Int.fract]
  split_ifs <;> constructor <;> push_cast <;> linarith

/-- Rounding to the nearest integer (ties to even) is monotone. -/
theorem round_half_even_mono {x y : ℝ} (h : x ≤ y) :
    round_half_even x ≤ round_half_even y := by
  by_contra hc
  push_neg at hc
  have hb1 := round_half_even_bounds x
  have hb2 := round_half_even_bounds y
  have hcast : (round_half_even y : ℝ) + 1 ≤ (round_half_even x : ℝ) := by
    exact_mod_cast hc
  have hxy : x = y := by linarith [hb1.2, hb2.1]
  rw [hxy] at hc
  exact lt_irrefl _ hc

/-- `round(·, 2)` is monotone, so the OHLC clamp survives the rounding. -/
theorem round2_mono {x y : ℝ} (h : x ≤ y) : round2 x ≤ round2 y := by
  unfold round2
  have h1 : round_half_even (100 * x) ≤ round_half_even (100 * y) :=
    round_half_even_mono (by linarith)
  have h2 : (round_half_even (100 * x) : ℝ) ≤ (round_half_even (100 * y) : ℝ) := by
    exact_mod_cast h1
  linarith

/-- The statistics lines 57–68 derive from the historical window: full-window
and recent (last 20) mean/deviation of daily returns, and recent average
volume. -/
structure TrendSignal where
  meanReturn : ℝ
  volatility : ℝ
  recentMean : ℝ
  recentVol : ℝ
  avgVolume : ℝ

/-- The random draws one simulated day consumes: `z` standard normal
(scaled by the volatility), `u1 u2 u3` standard uniform in `[0,1]` (affinely
mapped onto the `np.random.uniform` ranges).  Theorems hold for all values. -/
structure Draw where
  z : ℝ
  u1 : ℝ
  u2 : ℝ
  u3 : ℝ

/-- `series.pct_change().dropna()`: consecutive ratios minus one. -/
def pct_change {α : Type} [DivisionRing α] (l : List α) : List α :=
  List.zipWith (fun prev cur => cur / prev - 1) l l.tail

/-- `series.tail(n)`: the last `n` elements. -/
def pd_tail {α : Type} (n : ℕ) (l : List α) : List α :=
  l.drop (l.length - n)

/-- `series.std()` (pandas default `ddof=1`): sample standard deviation. -/
noncomputable def sample_std (l : List ℝ) : ℝ :=
  Real.sqrt ((l.map (fun x => (x - list_mean l) ^ 2)).sum / ((l.length : ℝ) - 1))

/-- Lines 57–68 of `generate_predictions`: the Estimator. -/
noncomputable def estimate (hist : List (Candle ℝ)) : TrendSignal :=
  { meanReturn := list_mean (pct_change (hist.map Candle.close))
    volatility := sample_std (pct_change (hist.map Candle.close))
    recentMean := list_mean (pd_tail 20 (pct_change (hist.map Candle.close)))
    recentVol := sample_std (pd_tail 20 (pct_change (hist.map Candle.close)))
    avgVolume := list_mean (pd_tail 20 (hist.map Candle.volume)) }

/-- Lines 85–93: the day's synthesized close,
`current_price * (1 + weighted_return + momentum + normal(0, recent_vol))`. -/
noncomputable def sim_price (P : TrendSignal) (price : ℝ) (d : Draw) : ℝ :=
  price * (1 + ((0.7 * P.recentMean + 0.3 * P.meanReturn)
    + np_sign P.recentMean * 0.002 + P.recentVol * d.z))

/-- Lines 95–114: one simulated candle — the OHLC draws around the new price,
the mandatory clamp `high = max(high, open, close)`,
`low = min(low, open, close)`, and the 2-decimal rounding of the stored
values.  Volume is the unchanged recent average volume. -/
noncomputable def sim_candle (P : TrendSignal) (price : ℝ) (date : ℤ) (d : Draw) : Candle ℝ :=
  let current_price := sim_price P price d
  let daily_range := current_price * P.recentVol * 1.5
  let pred_open := current_price + (-(daily_range / 4) + d.u1 * (daily_range / 2))
  let pred_high := max pred_open current_price + d.u2 * (daily_range / 2)
  let pred_low := min pred_open current_price - d.u3 * (daily_range / 2)
  let pred_close := current_price
  { date := date
    open' := round2 pred_open
    high := round2 (max pred_high (max pred_open pred_close))
    low := round2 (min pred_low (min pred_open pred_close))
    close := round2 pred_close
    volume := P.avgVolume }

/-- The prediction loop (lines 75–114): day `i` uses `pred_date_1003` for its
date and chains `current_price` through `sim_price`.  The last argument is
the number of days still to simulate. -/
noncomputable def sim_path (P : TrendSignal) (last_date : ℤ) (draws : ℕ → Draw)
    (price : ℝ) (i : ℕ) : ℕ → List (Candle ℝ)
  | 0 => []
  | Nat.succ m =>
      sim_candle P price (pred_date_1003 last_date i) (draws i) ::
        sim_path P last_date draws (sim_price P price (draws i)) (i + 1) m

/-- `generate_predictions(historical_data, prediction_days)` (lines 52–116):
`None` for a window shorter than 20 candles, otherwise the simulated path
starting from the last close and last date. -/
noncomputable def generate_predictions (hist : List (Candle ℝ)) (prediction_days : ℕ)
    (draws : ℕ → Draw) : Option (List (Candle ℝ)) :=
  if hist.length < 20 then none
  else some (sim_path (estimate hist) (hist.getLastD cdefR).date draws
    (hist.getLastD cdefR).close 0 prediction_days)

/-- The `len(historical) < 20` skip guard of `process_ticker`
(lines 248–251): `True` exactly when the ticker is processed and written. -/
def process_ticker_proceeds (hist : List (Candle ℝ)) : Bool :=
  !decide (hist.length < 20)

/-- The OHLC invariant: low ≤ open ≤ high and low ≤ close ≤ high. -/
def candle_inv (c : Candle ℝ) : Prop :=
  c.low ≤ c.open' ∧ c.open' ≤ c.high ∧ c.low ≤ c.close ∧ c.close ≤ c.high

/-- Every candle `sim_candle` emits satisfies the OHLC invariant, whatever
the draws: the clamp forces it and the rounding is monotone. -/
theorem sim_candle_inv (P : TrendSignal) (price : ℝ) (date : ℤ) (d : Draw) :
    candle_inv (sim_candle P price date d) := by
  unfold sim_candle candle_inv
  refine ⟨?_, ?_, ?_, ?_⟩ <;> apply round2_mono
  · exact le_trans (min_le_right _ _) (min_le_left _ _)
  · exact le_trans (le_max_left _ _) (le_max_right _ _)
  · exact le_trans (min_le_right _ _) (min_le_right _ _)
  · exact le_trans (le_max_right _ _) (le_max_right _ _)

/-- The simulated path has exactly the requested number of days. -/
theorem sim_path_length (P : TrendSignal) (last_date : ℤ) (draws : ℕ → Draw)
    (price : ℝ) (i N : ℕ) : (sim_path P last_date draws price i N).length = N := by
  induction N generalizing price i with
  | zero => rfl
  | succ m ih => simp [sim_path, ih]

/-- Every candle of a simulated path satisfies the OHLC invariant. -/
theorem sim_path_inv (P : TrendSignal) (last_date : ℤ) (draws : ℕ → Draw)
    (price : ℝ) (i N : ℕ) :
    ∀ c ∈ sim_path P last_date draws price i N, candle_inv c := by
  induction N generalizing price i with
  | zero => intro c hc; simp [sim_path] at hc
  | succ m ih =>
    intro c hc
    rw [sim_path] at hc
    rcases List.mem_cons.mp hc with rfl | h
    · exact sim_candle_inv _ _ _ _
    · exact ih _ _ _ h

/-- C1.  Every predicted candle of `generate_predictions` satisfies
low ≤ open ≤ high and low ≤ close ≤ high, for every historical window of at
least 20 candles, every horizon, and every realization of the random draws:
the mandatory clamp of lines 104–105 guarantees it unconditionally, and the
2-decimal rounding preserves it. -/
theorem predicted_candles_ohlc_invariant (hist : List (Candle ℝ)) (N : ℕ)
    (draws : ℕ → Draw) (h20 : 20 ≤ hist.length) (i : ℕ) (hi : i < N) :
    candle_inv (((generate_predictions hist N draws).getD []).getD i cdefR) := by
  rw [generate_predictions, if_neg (by omega)]
  simp only [Option.getD_some]
  have hlen := sim_path_length (estimate hist) (hist.getLastD cdefR).date draws
    (hist.getLastD cdefR).close 0 N
  apply sim_path_inv
  rw [List.getD_eq_getElem _ _ (by omega)]
  exact List.getElem_mem _

/-- A constant window of 20 identical candles, used to instantiate the
simulator theorems. -/
noncomputable def chist_w : List (Candle ℝ) :=
  List.replicate 20 ⟨0, 1, 1, 1, 1, 1⟩

/-- A 19-candle window, one short of the minimum. -/
noncomputable def chist_short : List (Candle ℝ) :=
  List.replicate 19 ⟨0, 1, 1, 1, 1, 1⟩

/-- The zero draw oracle. -/
noncomputable def draws_w : ℕ → Draw := fun _ => ⟨0, 0, 0, 0⟩

/-- Witness for C1: day 0 of a 5-day simulation over a concrete 20-candle
window satisfies the OHLC invariant. -/
theorem predicted_candles_ohlc_invariant_witness :
    20 ≤ chist_w.length ∧ (0 : ℕ) < 5 ∧
    candle_inv (((generate_predictions chist_w 5 draws_w).getD []).getD 0 cdefR) :=
  ⟨by simp [chist_w], by norm_num,
    predicted_candles_ohlc_invariant chist_w 5 draws_w (by simp [chist_w]) 0 (by norm_num)⟩

/-- C7.  A window of fewer than 20 candles makes `generate_predictions`
return `None` and makes `process_ticker` skip the ticker (no forecast is
fabricated); a window of at least 20 candles never fails for this reason —
the simulator returns a path and the ticker proceeds. -/
theorem insufficient_history_guard (hist : List (Candle ℝ)) (N : ℕ) (draws : ℕ → Draw) :
    (hist.length < 20 →
      generate_predictions hist N draws = none ∧ process_ticker_proceeds hist = false) ∧
    (20 ≤ hist.length →
      (generate_predictions hist N draws).isSome = true ∧ process_ticker_proceeds hist = true) := by
  constructor
  · intro h
    rw [generate_predictions, if_pos h]
    simp [process_ticker_proceeds, h]
  · intro h
    rw [generate_predictions, if_neg (by omega)]
    simp only [Option.isSome_some, process_ticker_proceeds, true_and]
    simp
    omega

/-- Witness for C7: the guard evaluated on concrete 19- and 20-candle
windows. -/
theorem insufficient_history_guard_witness :
    (generate_predictions chist_short 5 draws_w = none ∧
      process_ticker_proceeds chist_short = false) ∧
    ((generate_predictions chist_w 5 draws_w).isSome = true ∧
      process_ticker_proceeds chist_w = true) :=
  ⟨(insufficient_history_guard chist_short 5 draws_w).1 (by simp [chist_short]),
   (insufficient_history_guard chist_w 5 draws_w).2 (by simp [chist_w])⟩

/-! ## Summary statistics of `create_prediction_json`

Lines 179–233: annualized volatility, quality label and overall score. -/

/-- Line 180–181: `volatility = returns.std() * np.sqrt(252) * 100`, the
annualized volatility statistic computed from the full historical window. -/
noncomputable def summary_volatility (hist : List (Candle ℝ)) : ℝ :=
  sample_std (pct_change (hist.map Candle.close)) * Real.sqrt 252 * 100

/-- Line 231: the `volatility` value actually written to `summary_stats` is
`round(float(volatility), 2)`. -/
noncomputable def reported_volatility (hist : List (Candle ℝ)) : ℝ :=
  round2 (summary_volatility hist)

/-- The two quality labels of line 230. -/
inductive Quality where
  | GOOD
  | MODERATE
deriving Repr, DecidableEq

/-- Line 230: `"GOOD" if volatility < 40 else "MODERATE"`, decided on the
unrounded statistic. -/
noncomputable def prediction_quality (hist : List (Candle ℝ)) : Quality :=
  if summary_volatility hist < 40 then Quality.GOOD else Quality.MODERATE

/-- Line 229: `min(95, max(70, 85 + np.random.randint(-5, 10)))`, with the
jitter an arbitrary integer draw. -/
def overall_score (j : ℤ) : ℤ :=
  min 95 (max 70 (85 + j))

/-- The spec's wording of the return series (§4.1): the per-step simple
returns `r_t = close_t/close_{t-1} − 1` over the full window, written by
index rather than by pairing the series with its own shift. -/
noncomputable def spec_returns (closes : List ℝ) : List ℝ :=
  (List.range (closes.length - 1)).map fun t => closes.getD (t + 1) 0 / closes.getD t 0 - 1

/-- The annualized volatility as §4.5 of the spec words it: sample standard
deviation of the full-window daily simple returns × sqrt(252) × 100. -/
noncomputable def spec_annualized_volatility (closes : List ℝ) : ℝ :=
  sample_std (spec_returns closes) * Real.sqrt 252 * 100

/-- `pct_change` computes exactly the spec's simple-return series. -/
theorem pct_change_eq_spec_returns (l : List ℝ) : pct_change l = spec_returns l := by
  have hlen : (pct_change l).length = l.length - 1 := by
    simp [pct_change]
  have hlen2 : (spec_returns l).length = l.length - 1 := by
    simp [spec_returns]
  apply List.ext_getElem (by rw [hlen, hlen2])
  intro i h1 h2
  rw [hlen] at h1
  simp only [pct_change, spec_returns, List.getElem_zipWith, List.getElem_tail,
    List.getElem_map, List.getElem_range]
  rw [List.getD_eq_getElem _ _ (by omega), List.getD_eq_getElem _ _ (by omega)]

/-- The code's volatility statistic coincides with the spec's formula. -/
theorem summary_volatility_eq_spec (hist : List (Candle ℝ)) :
    summary_volatility hist = spec_annualized_volatility (hist.map Candle.close) := by
  unfold summary_volatility spec_annualized_volatility
  rw [pct_change_eq_spec_returns]

/-- A three-candle window with closes 1, 2, 3, whose return series [1, 1/2]
has sample variance 1/8, so its annualized volatility `√(1/8)·√252·100` is
irrational. -/
noncomputable def chist_cex : List (Candle ℝ) :=
  [⟨0, 1, 1, 1, 1, 1⟩, ⟨1, 2, 2, 2, 2, 1⟩, ⟨2, 3, 3, 3, 3, 1⟩]

/-- The squared volatility of the counterexample window. -/
theorem chist_cex_vol_sq :
    summary_volatility chist_cex ^ 2 = 315000 ∧ 0 ≤ summary_volatility chist_cex := by
  have hmap : chist_cex.map Candle.close = [1, 2, 3] := rfl
  have harg : ((pct_change ([1, 2, 3] : List ℝ)).map
      (fun x => (x - list_mean (pct_change ([1, 2, 3] : List ℝ))) ^ 2)).sum
      / (((pct_change ([1, 2, 3] : List ℝ)).length : ℝ) - 1) = 1 / 8 := by
    norm_num [pct_change, list_mean, List.zipWith]
  have hstd : sample_std (pct_change ([1, 2, 3] : List ℝ)) = Real.sqrt (1 / 8) := by
    rw [sample_std, harg]
  have hV : summary_volatility chist_cex = Real.sqrt (1 / 8) * Real.sqrt 252 * 100 := by
    rw [summary_volatility, hmap, hstd]
  constructor
  · rw [hV, mul_pow, mul_pow, Real.sq_sqrt (by norm_num), Real.sq_sqrt (by norm_num)]
    norm_num
  · rw [hV]
    positivity

/-- Counterexample for C9.  The `volatility` field written to the record is
rounded to 2 decimals (line 231), while the exact statistic
std × √252 × 100 of the window with closes 1, 2, 3 is the irrational
`√(1/8)·√252·100 = 100·√31.5`; no integer over 100 squares to 3 150 000 000,
so the reported value cannot equal the claimed formula. -/
theorem reported_volatility_not_exact :
    reported_volatility chist_cex ≠ spec_annualized_volatility (chist_cex.map Candle.close) := by
  rw [← summary_volatility_eq_spec]
  unfold reported_volatility round2
  intro heq
  obtain ⟨hsq, h0⟩ := chist_cex_vol_sq
  set V := summary_volatility chist_cex with hVdef
  set z := round_half_even (100 * V) with hzdef
  have hzr : (z : ℝ) = 100 * V := by
    rw [div_eq_iff (by norm_num : (100:ℝ) ≠ 0)] at heq
    linarith
  have hz2 : (z : ℝ) ^ 2 = 3150000000 := by
    rw [hzr, mul_pow, hsq]
    norm_num
  have hz2' : z ^ 2 = 3150000000 := by exact_mod_cast hz2
  have hz0 : 0 ≤ z := by
    have h1 : (0:ℝ) ≤ (z : ℝ) := by rw [hzr]; linarith
    exact_mod_cast h1
  rcases le_or_lt z 56124 with hle | hlt
  · have h2 : z ^ 2 ≤ 3149903376 := by nlinarith
    rw [hz2'] at h2
    norm_num at h2
  · have h3 : (56125:ℤ) ≤ z := hlt
    have h2 : (3150015625:ℤ) ≤ z ^ 2 := by nlinarith
    rw [hz2'] at h2
    norm_num at h2

/-- C9 (amended).  For every historical window: the volatility statistic is
exactly std(full-window simple returns) × √252 × 100 and the recorded
`volatility` field is that value rounded to two decimals; the quality label
is GOOD exactly when the (unrounded) annualized volatility is below 40 and
MODERATE otherwise; and the overall score lies in [70, 95] for every value of
the random jitter. -/
theorem volatility_quality_score (hist : List (Candle ℝ)) :
    summary_volatility hist = spec_annualized_volatility (hist.map Candle.close) ∧
    reported_volatility hist = round2 (spec_annualized_volatility (hist.map Candle.close)) ∧
    (prediction_quality hist = Quality.GOOD ↔ summary_volatility hist < 40) ∧
    (prediction_quality hist = Quality.MODERATE ↔ 40 ≤ summary_volatility hist) ∧
    (∀ j : ℤ, 70 ≤ overall_score j ∧ overall_score j ≤ 95) := by
  refine ⟨summary_volatility_eq_spec hist,
    by rw [reported_volatility, summary_volatility_eq_spec hist], ?_, ?_, ?_⟩
  · unfold prediction_quality
    constructor
    · intro h
      by_cases hv : summary_volatility hist < 40
      · exact hv
      · rw [if_neg hv] at h
        simp at h
    · intro h
      rw [if_pos h]
  · unfold prediction_quality
    constructor
    · intro h
      by_cases hv : summary_volatility hist < 40
      · rw [if_pos hv] at h
        simp at h
      · linarith [not_lt.mp hv]
    · intro h
      rw [if_neg (by linarith)]
  · intro j
    exact ⟨le_min (by norm_num) (le_max_left _ _), min_le_left _ _⟩

/-- The weekend skip never moves a date backwards. -/
theorem skip_weekend_ge (d : ℤ) : d ≤ skip_weekend d := by
  unfold skip_weekend
  split
  · split <;> omega
  · omega

/-- The `fix_qqq_predictions.py` calendar walk is strictly increasing, as the
claim describes: each forecast date is strictly later than the previous one
(hence all dates are pairwise distinct), and each lands on a weekday. -/
theorem fix_qqq_date_strict_mono (last_date : ℤ) (n : ℕ) :
    fix_qqq_date last_date n < fix_qqq_date last_date (n + 1) ∧
    fix_qqq_date last_date n % 7 < 5 := by
  constructor
  · show _ < next_trading_date _
    unfold next_trading_date
    have := skip_weekend_ge (fix_qqq_date last_date n + 1)
    omega
  · match n with
    | 0 => exact skip_weekend_weekday _
    | m + 1 => exact skip_weekend_weekday _
